import Mathlib

/-!
Verification development for the btest Bechdel-test analysis pipeline.

The definitions below are a shallow embedding of the Python modules
`src/core/text_processor.py`, `src/core/character.py`,
`src/core/conversation.py`, `src/core/llm_helper.py` and
`src/core/analyzer.py`.  Python strings are modelled as Lean `String`
(lists of unicode characters), Python exceptions as `Except PyErr`,
and the external LLM service as an explicit oracle parameter
(`LLMService`): `none` models the module-level `llm` global being
`None` (service unavailable), `some o` models an initialized client
whose responses are given by the fixed functions in `o` (a call that
raises is an `Except.error` result of the oracle).
-/

namespace BTest

/-- Python exception kinds that the embedded code can raise. -/
inductive PyErr where
  | llmError        -- `LLMError` from `exceptions.py`
  | conversationError -- `ConversationError` from `exceptions.py`
  | typeError       -- e.g. `TypeError: unhashable type: 'list'`
  | indexError      -- e.g. `[]​[0]`
  | keyError        -- dict lookup failure
  | nameError       -- unresolved global (e.g. `ValidationError` not imported)
  deriving Repr, DecidableEq

/-- Characters of Python's whitespace class.  For `str` patterns the `re`
module's `\s`, and the set used by `str.split()` / `str.strip()` /
`str.isspace()`, are the same set of code points (checked against
CPython 3): 0x09–0x0D, 0x1C–0x1F, 0x20, 0x85, 0xA0, 0x1680,
0x2000–0x200A, 0x2028, 0x2029, 0x202F, 0x205F, 0x3000. -/
def isPySpace (c : Char) : Bool :=
  (0x09 ≤ c.toNat && c.toNat ≤ 0x0D) ||
  (0x1C ≤ c.toNat && c.toNat ≤ 0x1F) ||
  c.toNat == 0x20 || c.toNat == 0x85 || c.toNat == 0xA0 ||
  c.toNat == 0x1680 ||
  (0x2000 ≤ c.toNat && c.toNat ≤ 0x200A) ||
  c.toNat == 0x2028 || c.toNat == 0x2029 ||
  c.toNat == 0x202F || c.toNat == 0x205F || c.toNat == 0x3000

/-- Membership in the regex class `[A-Z]` (ASCII uppercase only: the
pattern is a plain character range, unaffected by unicode flags). -/
def isAZUpper (c : Char) : Bool :=
  'A' ≤ c && c ≤ 'Z'

/-- Python `str.lower()`, restricted to the ASCII mapping (the only case
conversions exercised by this code base's closed word sets). -/
def pyLower (s : String) : String :=
  String.mk (s.data.map Char.toLower)

/-- Python `str.strip()` with no argument: remove leading and trailing
whitespace characters. -/
def pyStrip (s : List Char) : List Char :=
  ((s.dropWhile isPySpace).reverse.dropWhile isPySpace).reverse

/-- Helper bound used for termination of scanners below. -/
theorem length_dropWhile_le' (p : α → Bool) (l : List α) :
    (l.dropWhile p).length ≤ l.length := by
  induction l with
  | nil => simp [List.dropWhile]
  | cons a l ih =>
    by_cases h : p a
    · simp [List.dropWhile, h]
      exact Nat.le_succ_of_le ih
    · simp [List.dropWhile, h]

/-- Accumulator pass of Python `str.split()` with no argument: walk the
characters keeping the current word (reversed); whitespace runs close
the current word, empty pieces are dropped. -/
def pySplitWsGo (s : List Char) (cur : List Char) : List String :=
  match s with
  | [] => if cur = [] then [] else [String.mk cur.reverse]
  | c :: rest =>
    if isPySpace c then
      if cur = [] then pySplitWsGo rest []
      else String.mk cur.reverse :: pySplitWsGo rest []
    else pySplitWsGo rest (c :: cur)

/-- Python `str.split()` with no argument: split on runs of whitespace,
dropping empty pieces. -/
def pySplitWs (s : String) : List String :=
  pySplitWsGo s.data []

/-- Python `text.split(sep)` for a one-character separator, as used by
`_analyze_context_for_gender` (`text.split('.')`).  Keeps empty pieces,
like Python's `str.split` with an explicit separator. -/
def pySplitOn (s : String) (sep : Char) : List String :=
  (s.data.splitOn sep).map String.mk

/-- Python `needle in hay` on strings (substring containment). -/
def pyInStr (needle hay : String) : Bool :=
  hay.data.tails.any (fun t => needle.data.isPrefixOf t)

/-! ## `text_processor.py` — TextProcessor

The dialogue pattern is
`(?P<character>[A-Z][A-Z\s]+):\s*(?P<dialogue>.*?)(?=\n[A-Z][A-Z\s]+:|$)`
compiled with `re.MULTILINE | re.DOTALL` and scanned with `finditer`.
Because the pattern is unanchored, a match may start anywhere in the
text.  A match attempt at a position succeeds exactly when the character
there is in `[A-Z]` and the maximal following run of `[A-Z\s]` characters
is non-empty and immediately followed by `:` (no other backtracking is
possible: `:` is not in `[A-Z\s]`, so no shorter run can be followed by
`:`).  After the colon, greedy `\s*` consumes the maximal whitespace run;
the lazy `.*?` then stops at the first position where the lookahead
holds, and under `re.MULTILINE` the `$` alternative of the lookahead
matches before every `\n` (and at end of text), so the dialogue group
runs from the first non-whitespace character after the colon to the
first `\n` at or after it (or end of text).  `finditer` yields
non-overlapping matches left to right, resuming after each match. -/

/-- Result of a successful match attempt at the head of `s`: the raw
`character` group, the raw `dialogue` group, and the total number of
characters the match consumed (so the scan resumes at `s.drop n`). -/
def matchCueAt (s : List Char) : Option (List Char × List Char × Nat) :=
  match s with
  | [] => none
  | c :: rest =>
    if isAZUpper c then
      let run := rest.takeWhile (fun d => isAZUpper d || isPySpace d)
      if run.length ≥ 1 then
        match rest.drop run.length with
        | ':' :: tail =>
          let ws := tail.takeWhile isPySpace
          let dialogue := (tail.drop ws.length).takeWhile (fun d => d ≠ '\n')
          some (c :: run, dialogue, 1 + run.length + 1 + ws.length + dialogue.length)
        | _ => none
      else none
    else none

/-- Every successful match consumes at least one character. -/
theorem matchCueAt_consumed_pos (s : List Char) (ch d : List Char) (n : Nat)
    (h : matchCueAt s = some (ch, d, n)) : 1 ≤ n := by
  simp only [matchCueAt] at h
  split at h
  · exact absurd h (by simp)
  · split at h
    · split at h
      · split at h
        · injection h with h1
          injection h1 with h1 h2
          injection h2 with h2 h3
          omega
        · exact absurd h (by simp)
      · exact absurd h (by simp)
    · exact absurd h (by simp)

/-- The `finditer` scan with explicit fuel (each step consumes at least
one character, so fuel `s.length` can never be exhausted; the fuel only
serves to make the recursion structural): try a match at every position
left to right; on success emit the `(character, dialogue)` raw groups
and resume after the match end. -/
def findDialoguesGo (fuel : Nat) (s : List Char) : List (List Char × List Char) :=
  match fuel with
  | 0 => []
  | fuel + 1 =>
    match s with
    | [] => []
    | c :: rest =>
      match matchCueAt (c :: rest) with
      | some (ch, d, n) => (ch, d) :: findDialoguesGo fuel ((c :: rest).drop n)
      | none => findDialoguesGo fuel rest

/-- The `finditer` scan over the whole text. -/
def findDialogues (s : List Char) : List (List Char × List Char) :=
  findDialoguesGo s.length s

/-- Embedding of `TextProcessor._clean_text` step 1:
`re.sub(r'\([^)]*\)', '', text)` — remove parenthetical stage
directions.  The regex matches, leftmost first, a `(` together with
everything up to and including the next `)`; a `(` with no later `)`
never matches and is kept. -/
def removeParensGo (fuel : Nat) (s : List Char) : List Char :=
  match fuel with
  | 0 => s
  | fuel + 1 =>
    match s with
    | [] => []
    | c :: rest =>
      if c = '(' && rest.contains ')' then
        removeParensGo fuel (rest.dropWhile (fun d => d ≠ ')')).tail
      else
        c :: removeParensGo fuel rest

def removeParens (s : List Char) : List Char :=
  removeParensGo s.length s

/-- Embedding of `TextProcessor._clean_text` step 2:
`re.sub(r'\s+', ' ', text)` — collapse every whitespace run to a single
space. -/
def collapseWsGo (s : List Char) (prevSpace : Bool) : List Char :=
  match s with
  | [] => []
  | c :: rest =>
    if isPySpace c then
      if prevSpace then collapseWsGo rest true
      else ' ' :: collapseWsGo rest true
    else c :: collapseWsGo rest false

def collapseWs (s : List Char) : List Char :=
  collapseWsGo s false

/-- Embedding of `TextProcessor._clean_text`: remove parentheticals,
collapse whitespace runs, strip. -/
def cleanText (s : List Char) : List Char :=
  pyStrip (collapseWs (removeParens s))

/-- Embedding of `TextProcessor.extract_dialogues`: run the pattern scan
over the text, strip the character group, strip then clean the dialogue
group, and keep only pairs whose cleaned dialogue is non-empty. -/
def extract_dialogues (text : String) : List (String × String) :=
  (findDialogues text.data).filterMap (fun p =>
    let dialogue := cleanText (pyStrip p.2)
    if dialogue ≠ [] then
      some (String.mk (pyStrip p.1), String.mk dialogue)
    else
      none)

/-- Append a line to a speaker's entry of the insertion-ordered mapping
(the model of the Python dict built by `process_script`). -/
def addLine (m : List (String × List String)) (c : String) (l : String) :
    List (String × List String) :=
  match m with
  | [] => [(c, [l])]
  | (k, ls) :: rest =>
    if k = c then (k, ls ++ [l]) :: rest else (k, ls) :: addLine rest c l

/-- Embedding of `TextProcessor.process_script`: group the extracted
`(character, dialogue)` pairs by character, preserving insertion order. -/
def process_script (text : String) : List (String × List String) :=
  (extract_dialogues text).foldl (fun acc p => addLine acc p.1 p.2) []

/-! ## `character.py` — Character and CharacterClassifier -/

/-- Embedding of the pydantic model `Character` (fields `name`,
`lines : Optional[List[str]] = None`, `gender : str = "unknown"`). -/
structure Character where
  name : String
  lines : Option (List String)
  gender : String
  deriving Repr, DecidableEq

/-- Python `==` on `Character`.  The class overrides `__hash__` but not
`__eq__`, so pydantic's default field-wise `BaseModel.__eq__` applies:
two instances are equal iff all fields agree. -/
def Character.pyEq (a b : Character) : Bool :=
  a.name == b.name && a.lines == b.lines && a.gender == b.gender

/-- Model of CPython's string hash used by `Character.__hash__`
(`hash(self.name)`): an arbitrary fixed function of the string.  Its only
property used anywhere is that it depends on the name alone. -/
def pyStrHash (s : String) : Nat :=
  s.data.foldl (fun h c => h * 31 + c.toNat) 7

/-- Embedding of `Character.__hash__`: `hash(self.name)`. -/
def Character.pyHash (c : Character) : Nat :=
  pyStrHash c.name

/-- Closed female first-name lexicon of `CharacterClassifier.__init__`. -/
def female_names : List String :=
  ["mary", "patricia", "linda", "barbara", "elizabeth", "jennifer", "maria",
   "susan", "margaret", "dorothy", "sarah", "jessica", "helen", "nancy",
   "betty", "karen", "lisa", "anna", "emma", "emily", "alice", "jane",
   "anne", "jean", "judy", "rose", "catherine", "martha"]

/-- Closed male first-name lexicon of `CharacterClassifier.__init__`. -/
def male_names : List String :=
  ["james", "john", "robert", "michael", "william", "david", "richard",
   "charles", "joseph", "thomas", "george", "donald", "kenneth", "steven",
   "edward", "brian", "ronald", "anthony", "kevin", "jason", "matthew",
   "gary", "timothy", "jose", "larry", "jeffrey", "frank", "scott", "eric"]

/-- Female indicator words of `CharacterClassifier.__init__`. -/
def female_indicators : List String :=
  ["she", "her", "hers", "herself", "girl", "woman", "lady", "mother",
   "sister", "aunt", "daughter", "wife", "girlfriend", "mrs", "miss", "ms"]

/-- Male indicator words of `CharacterClassifier.__init__`. -/
def male_indicators : List String :=
  ["he", "him", "his", "himself", "boy", "man", "guy", "father",
   "brother", "uncle", "son", "husband", "boyfriend", "mr", "sir"]

/-- Python `str.endswith(suffix)`. -/
def pyEndsWith (s suffix : String) : Bool :=
  suffix.data.isSuffixOf s.data

/-- Python `str.endswith(tuple)`: true iff some listed suffix matches. -/
def pyEndsWithAny (s : String) (suffixes : List String) : Bool :=
  suffixes.any (pyEndsWith s)

/-- Embedding of `CharacterClassifier._get_name_gender`.  The first
statement `first_name = name.lower().split()[0]` indexes the split
result, which raises `IndexError` when the lowered name splits to an
empty list (name empty or all whitespace). -/
def _get_name_gender (name : String) : Except PyErr String :=
  match pySplitWs (pyLower name) with
  | [] => .error .indexError
  | first_name :: _ =>
    if female_names.contains first_name then .ok "female"
    else if male_names.contains first_name then .ok "male"
    else if pyEndsWithAny first_name ["a", "ie", "y", "i"] &&
        !pyEndsWithAny first_name ["by", "ey", "dy", "ty"] then .ok "female"
    else if pyEndsWithAny first_name ["son", "ton", "er", "or", "en"] then .ok "male"
    else .ok "unknown"

/-- Count of words of `line.lower().split()` that lie in `indicators`,
summed over all lines (the two `sum(...)` accumulations of the
classifier's dialogue and context stages). -/
def countIndicators (indicators : List String) (lines : List String) : Nat :=
  lines.foldl (fun n line =>
    n + ((pySplitWs (pyLower line)).filter indicators.contains).length) 0

/-- Embedding of `CharacterClassifier._analyze_dialogue_for_gender`. -/
def _analyze_dialogue_for_gender (lines : List String) : String :=
  let female_count := countIndicators female_indicators lines
  let male_count := countIndicators male_indicators lines
  if female_count > male_count * 2 then "female"
  else if male_count > female_count * 2 then "male"
  else "unknown"

/-- Embedding of `CharacterClassifier._analyze_context_for_gender`:
split the script on literal periods and accumulate indicator counts over
the sentences containing the (case-sensitive) name as a substring. -/
def _analyze_context_for_gender (name : String) (text : String) : String :=
  let sentences := pySplitOn text '.'
  let relevant := sentences.filter (fun sentence => pyInStr name sentence)
  let female_count := countIndicators female_indicators relevant
  let male_count := countIndicators male_indicators relevant
  if female_count > male_count * 2 then "female"
  else if male_count > female_count * 2 then "male"
  else "unknown"

/-! ## `llm_helper.py` — the external judgment service model

The module-level global `llm` is `None` when `OllamaLLM` could not be
initialized, and a client otherwise.  A client is modelled by an oracle
of fixed response functions; a call that raises an exception is an
`Except.error ()` oracle result.  The chains post-process raw responses
with `.strip().lower()`, which the embedding applies explicitly. -/

structure LLMOracle where
  /-- Raw text returned by `gender_chain` before `.strip().lower()`
  post-processing, for a `(character_name, context)` query; `.error`
  models the call raising. -/
  genderResp : String → String → Except Unit String
  /-- Raw boolean computed by `topic_chain` (which applies
  `.strip().lower() == "true"` itself) for a joined dialogue text. -/
  topicResp : String → Except Unit Bool
  /-- Raw text returned by `llm.invoke(validation_prompt)` in
  `validate_bechdel_result`, keyed by the female names, conversation
  texts and original result that build the prompt. -/
  validateResp : List String → List (List String) → Bool → Except Unit String

/-- The module-level `llm` global: `none` iff the service is
unavailable. -/
abbrev LLMService := Option LLMOracle

/-- Python truthiness of `context or default`: an absent or empty
string falls back to the default. -/
def orDefault (context : Option String) (default : String) : String :=
  match context with
  | none => default
  | some s => if s = "" then default else s

/-- Python `.strip().lower()` post-processing applied by the chains. -/
def stripLower (s : String) : String :=
  pyLower (String.mk (pyStrip s.data))

/-- Embedding of `llm_helper.detect_gender`.  When `llm` is `None` it
returns "unknown" without any service call; an in-vocabulary response
is returned; an out-of-vocabulary response degrades to "unknown"; a
raising service call is re-raised as `LLMError` (the `except` clause
raises, it does not degrade).  The `lru_cache` decoration does not
change the value computed for a fixed oracle. -/
def detect_gender (llm : LLMService) (character_name : String)
    (context : Option String) : Except PyErr String :=
  match llm with
  | none => .ok "unknown"
  | some oracle =>
    match oracle.genderResp character_name
        (orDefault context ("Character named " ++ character_name ++ " in a script.")) with
    | .error _ => .error .llmError
    | .ok raw =>
      let result := stripLower raw
      if result = "female" || result = "male" || result = "unknown" then .ok result
      else .ok "unknown"

/-- Python truthiness of `character.lines` (`None` and `[]` are falsy). -/
def linesTruthy (c : Character) : Option (List String) :=
  match c.lines with
  | none => none
  | some ls => if ls = [] then none else some ls

/-- Python truthiness of an optional string (`None` and `""` are falsy),
used for `if script_text:`. -/
def strTruthy (s : Option String) : Option String :=
  match s with
  | none => none
  | some t => if t = "" then none else some t

/-- Python `"\n".join(lines)`. -/
def joinLines (lines : List String) : String :=
  String.intercalate "\n" lines

/-- Embedding of `CharacterClassifier.classify_character`: the ordered
fallback chain — name lexicon and suffixes, dialogue indicators, script
context indicators, then the LLM fallback.  Each stage's exceptions
propagate (nothing in the method catches). -/
def classify_character (llm : LLMService) (character : Character)
    (script_text : Option String) : Except PyErr Character := do
  let name_gender ← _get_name_gender character.name
  if name_gender ≠ "unknown" then
    return { character with gender := name_gender }
  let afterDialogue : Option Character :=
    match linesTruthy character with
    | some ls =>
      let dialogue_gender := _analyze_dialogue_for_gender ls
      if dialogue_gender ≠ "unknown" then
        some { character with gender := dialogue_gender }
      else none
    | none => none
  match afterDialogue with
  | some c => return c
  | none =>
    let afterContext : Option Character :=
      match strTruthy script_text with
      | some s =>
        let context_gender := _analyze_context_for_gender character.name s
        if context_gender ≠ "unknown" then
          some { character with gender := context_gender }
        else none
      | none => none
    match afterContext with
    | some c => return c
    | none =>
      match strTruthy script_text with
      | some s =>
        let context := match linesTruthy character with
          | some ls => joinLines ls
          | none => s
        let llm_gender ← detect_gender llm character.name (some context)
        if llm_gender ≠ "unknown" then
          return { character with gender := llm_gender }
        return character
      | none => return character

/-! ## `llm_helper.py` — topic classification -/

/-- Male topic terms of `_heuristic_male_topic_detection`. -/
def male_terms : List String :=
  ["he", "him", "his", "himself", "man", "men", "guy", "guys",
   "father", "brother", "son", "husband", "boyfriend"]

/-- Deduplicated word list: the model of Python `set(text.split())`
(first occurrence kept; only the count of distinct words is ever used). -/
def distinctWords (ws : List String) : List String :=
  ws.foldl (fun acc w => if acc.contains w then acc else acc ++ [w]) []

/-- Embedding of `_heuristic_male_topic_detection`: join the lines with
spaces, lowercase, split into the set of distinct words, and compare the
number of distinct male terms against `len(words) * 0.1`.  The float
comparison `count > n * 0.1` is embedded as the exact rational
comparison `10 * count > n`, which agrees with the IEEE-754 evaluation
for every word count below 10^15 (the float literal `0.1` exceeds 1/10
by less than 6e-17). -/
def _heuristic_male_topic_detection (dialogue : List String) : Bool :=
  let text := pyLower (String.intercalate " " dialogue)
  let words := distinctWords (pySplitWs text)
  let male_word_count := (words.filter male_terms.contains).length
  10 * male_word_count > words.length

/-- Body of `llm_helper.is_conversation_about_men`, as it would run if
its argument reached it: heuristic when the service is unavailable,
otherwise the topic chain's answer, re-raised as `LLMError` on failure. -/
def is_conversation_about_men_body (llm : LLMService) (dialogue : List String) :
    Except PyErr Bool :=
  match llm with
  | none => .ok (_heuristic_male_topic_detection dialogue)
  | some oracle =>
    match oracle.topicResp (joinLines dialogue) with
    | .ok b => .ok b
    | .error _ => .error .llmError

/-- Hashability of a Python call argument, as `functools.lru_cache`
requires: the wrapper hashes the argument tuple before entering the
wrapped function.  A `str` is hashable, a `list` is not. -/
inductive PyArg where
  | str (s : String)
  | list (xs : List String)

def PyArg.hashable : PyArg → Bool
  | .str _ => true
  | .list _ => false

/-- Model of an `lru_cache`-wrapped unary function applied to an
argument: the memoizing wrapper first hashes the argument, so an
unhashable argument raises `TypeError` before the body runs; a hashable
argument reaches the body (memoization does not change the value of a
pure body). -/
def lruCacheApply (body : PyArg → Except PyErr Bool) (arg : PyArg) :
    Except PyErr Bool :=
  if arg.hashable then body arg else .error .typeError

/-- Embedding of the `@lru_cache`-decorated `is_conversation_about_men`
as called with a `dialogue` list argument: the wrapper must hash the
list and raises `TypeError: unhashable type: 'list'` before the body
runs. -/
def is_conversation_about_men (llm : LLMService) (dialogue : List String) :
    Except PyErr Bool :=
  lruCacheApply
    (fun arg =>
      match arg with
      | .list xs => is_conversation_about_men_body llm xs
      | .str s => is_conversation_about_men_body llm [s])
    (.list dialogue)

/-! ## `conversation.py` — Conversation and ConversationAnalyzer -/

/-- Embedding of the dataclass `Conversation`.  The participant set is
modelled as a duplicate-free list (Python set insertion order; nothing
downstream depends on member order). -/
structure Conversation where
  participants : List Character
  dialogue : List String
  about_men : Bool
  context : String
  deriving Repr, DecidableEq

/-- Python `set.add` under `Character`'s `__hash__`/`__eq__`: insert
unless an equal member is present. -/
def pySetAdd (s : List Character) (c : Character) : List Character :=
  if s.any (fun x => x.pyEq c) then s else s ++ [c]

/-- Python two-element set literal `{a, b}`. -/
def pySetPair (a b : Character) : List Character :=
  pySetAdd (pySetAdd [] a) b

/-- Male topic indicator words of `ConversationAnalyzer.__init__`. -/
def male_topic_indicators : List String :=
  ["he", "him", "his", "himself", "boy", "man", "guy", "father",
   "brother", "uncle", "son", "husband", "boyfriend", "mr", "sir",
   "dad", "daddy", "grandpa", "grandfather"]

/-- Embedding of `ConversationAnalyzer._rule_based_topic_analysis`:
per-line lowercase-and-split word counts, male indicator occurrence
counts, and the float threshold `male_ref_count / total_words > 0.1`
embedded as the exact comparison `10 * male_ref_count > total_words`
(agreeing with IEEE-754 for all realistic word counts, see
`_heuristic_male_topic_detection`); zero total words yield `False`. -/
def _rule_based_topic_analysis (dialogue : List String) : Bool :=
  let counts := dialogue.foldl
    (fun acc line =>
      let words := pySplitWs (pyLower line)
      (acc.1 + words.length,
       acc.2 + (words.filter male_topic_indicators.contains).length))
    (0, 0)
  if counts.1 > 0 then 10 * counts.2 > counts.1 else false

/-- Embedding of `ConversationAnalyzer._analyze_topic`: call the cached
`is_conversation_about_men` on the dialogue list and fall back to the
rule-based analysis on any exception. -/
def _analyze_topic (llm : LLMService) (dialogue : List String) : Bool :=
  match is_conversation_about_men llm dialogue with
  | .ok about_men => about_men
  | .error _ => _rule_based_topic_analysis dialogue

/-- Lookup in the insertion-ordered mapping model of a Python dict. -/
def dictGet (m : List (String × α)) (k : String) : Option α :=
  match m with
  | [] => none
  | (k2, v) :: rest => if k2 = k then some v else dictGet rest k

/-- Python `key in dict`. -/
def dictMem (m : List (String × α)) (k : String) : Bool :=
  (dictGet m k).isSome

/-- Python `dict[key]`, raising `KeyError` when absent. -/
def dictIndex (m : List (String × α)) (k : String) : Except PyErr α :=
  match dictGet m k with
  | some v => .ok v
  | none => .error .keyError

/-- Flattening step of `extract_conversations`: walk `character_lines`
in mapping order and collect `(name, line)` pairs for names present in
`characters`. -/
def buildSequence (character_lines : List (String × List String))
    (characters : List (String × Character)) : List (String × String) :=
  character_lines.foldl
    (fun acc p =>
      p.2.foldl
        (fun acc2 line =>
          if dictMem characters p.1 then acc2 ++ [(p.1, line)] else acc2)
        acc)
    []

/-- Python truthiness of the `last_speaker` variable (`None` and the
empty string are falsy). -/
def speakerTruthy (last : Option String) : Bool :=
  match last with
  | none => false
  | some s => s ≠ ""

/-- Python `name != last_speaker` (comparison with `None` is `True`). -/
def speakerNe (name : String) (last : Option String) : Bool :=
  match last with
  | none => true
  | some s => name ≠ s

/-- Body of one iteration of the `extract_conversations` loop for the
tuple `(name, line)` at index `i`: returns the updated running
participants set, running dialogue list and emitted-conversation list
(`restNil` is whether `i` is the last index of the sequence). -/
def convStep (llm : LLMService) (characters : List (String × Character))
    (name line : String) (restNil : Bool) (i : Nat)
    (participants0 : List Character) (dialogue0 : List String)
    (last_speaker : Option String) (conversations0 : List Conversation) :
    Except PyErr (List Character × List String × List Conversation) :=
  match dictIndex characters name with
  | .error e => .error e
  | .ok current_char =>
    let participants := pySetAdd participants0 current_char
    let dialogue := dialogue0 ++ [line]
    -- emission on a back-and-forth between characters
    let conversations :=
      if speakerTruthy last_speaker && speakerNe name last_speaker &&
          participants.length ≥ 2 then
        conversations0 ++
          [{ participants := participants, dialogue := dialogue,
             about_men := _analyze_topic llm dialogue,
             context := "Conversation at sequence " ++ toString i }]
      else conversations0
    -- reset when the speaker changes (or on the first tuple)
    let reset : Except PyErr (List Character × List String) :=
      if (!speakerTruthy last_speaker || speakerNe name last_speaker) &&
          dialogue.length > 1 then
        match dialogue.getLast? with
        | none => .error .indexError
        | some lastLine =>
          if speakerTruthy last_speaker then
            match dictIndex characters (last_speaker.getD "") with
            | .error e => .error e
            | .ok prev => .ok (pySetPair prev current_char, [lastLine, line])
          else .ok (pySetAdd [] current_char, [lastLine, line])
      else .ok (participants, dialogue)
    match reset with
    | .error e => .error e
    | .ok (participants, dialogue) =>
      -- final emission at the last index
      let conversations :=
        if restNil && participants.length ≥ 2 then
          conversations ++
            [{ participants := participants, dialogue := dialogue,
               about_men := _analyze_topic llm dialogue,
               context := "Final conversation in sequence" }]
        else conversations
      .ok (participants, dialogue, conversations)

/-- One-pass loop of `extract_conversations` over the flattened
sequence, carried state: index `i`, running participants set, running
dialogue list, `last_speaker`, and the emitted conversations. -/
def convLoop (llm : LLMService) (characters : List (String × Character)) :
    List (String × String) → Nat → List Character → List String →
    Option String → List Conversation → Except PyErr (List Conversation)
  | [], _, _, _, _, conversations => .ok conversations
  | (name, line) :: restSeq, i, participants0, dialogue0, last_speaker,
      conversations0 =>
    match convStep llm characters name line (restSeq = []) i participants0
        dialogue0 last_speaker conversations0 with
    | .error e => .error e
    | .ok (participants, dialogue, conversations) =>
      convLoop llm characters restSeq (i + 1) participants dialogue (some name)
        conversations

/-- Embedding of `ConversationAnalyzer.extract_conversations`: flatten,
return `[]` for sequences shorter than 2, otherwise run the loop; any
exception inside the loop is wrapped into `ConversationError`. -/
def extract_conversations (llm : LLMService)
    (character_lines : List (String × List String))
    (characters : List (String × Character)) : Except PyErr (List Conversation) :=
  let sequence := buildSequence character_lines characters
  if sequence.length < 2 then .ok []
  else
    match convLoop llm characters sequence 0 [] [] none [] with
    | .ok conversations => .ok conversations
    | .error _ => .error .conversationError

/-! ## `analyzer.py` — BechdelAnalyzer -/

/-- Embedding of the dataclass `BechdelResult`. -/
structure BechdelResult where
  passes_test : Bool
  female_characters : List Character
  conversations : Option (List Conversation)
  failure_reasons : Option (List String)
  deriving Repr, DecidableEq

/-- Embedding of `llm_helper.validate_bechdel_result`: with no service,
return the original result; with fewer than two female names, return
`False`; otherwise ask the service and interpret
`result.strip().lower() == "true"`; a raising call is re-raised (the
`except` clause itself raises — `ValidationError` is not imported in
`llm_helper.py`, so the re-raise is in fact a `NameError`, but an
exception either way). -/
def validate_bechdel_result (llm : LLMService) (female_characters : List String)
    (conversations : List (List String)) (original_result : Bool) :
    Except PyErr Bool :=
  match llm with
  | none => .ok original_result
  | some oracle =>
    if female_characters = [] || female_characters.length < 2 then .ok false
    else
      match oracle.validateResp female_characters conversations original_result with
      | .ok raw => .ok (stripLower raw = "true")
      | .error _ => .error .nameError

/-- Criterion 2 filter of `analyze_script`: conversations all of whose
participants are female, with at least two participants. -/
def femaleConversations (conversations : List Conversation) : List Conversation :=
  conversations.filter (fun conv =>
    conv.participants.all (fun c => c.gender = "female") &&
    conv.participants.length ≥ 2)

/-- Criterion 3 filter of `analyze_script`: the female conversations not
about men. -/
def nonMaleConversations (conversations : List Conversation) : List Conversation :=
  (femaleConversations conversations).filter (fun conv => !conv.about_men)

/-- Evaluation phase of `BechdelAnalyzer.analyze_script`, from the
`failure_reasons = []` line to the return: the three short-circuiting
criteria followed by the guarded LLM cross-validation, whose exceptions
are swallowed (`except Exception: pass`). -/
def bechdelEvaluate (llm : LLMService) (female_characters : List Character)
    (conversations : List Conversation) : BechdelResult :=
  if female_characters.length < 2 then
    { passes_test := false, female_characters := female_characters,
      conversations := some conversations,
      failure_reasons := some ["Fewer than two female characters found"] }
  else if femaleConversations conversations = [] then
    { passes_test := false, female_characters := female_characters,
      conversations := some conversations,
      failure_reasons := some ["No conversations between female characters found"] }
  else if nonMaleConversations conversations = [] then
    { passes_test := false, female_characters := female_characters,
      conversations := some conversations,
      failure_reasons :=
        some ["All conversations between female characters are about men"] }
  else
    let result : BechdelResult :=
      { passes_test := true, female_characters := female_characters,
        conversations := some conversations, failure_reasons := none }
    match validate_bechdel_result llm (female_characters.map (fun c => c.name))
        ((nonMaleConversations conversations).map (fun conv => conv.dialogue))
        true with
    | .ok validated =>
      if !validated then
        { result with
          passes_test := false
          failure_reasons := some ["LLM validation determined test should fail"] }
      else result
    | .error _ => result

/-- Python dict insertion `characters[name] = char` on the ordered
mapping model. -/
def dictSet (m : List (String × α)) (k : String) (v : α) : List (String × α) :=
  match m with
  | [] => [(k, v)]
  | (k2, v2) :: rest =>
    if k2 = k then (k2, v) :: rest else (k2, v2) :: dictSet rest k v

/-- Character construction and classification loop of `analyze_script`:
build a `Character` per speaker, classify it (exceptions propagate), and
collect the female ones in encounter order. -/
def classifyAll (llm : LLMService) (script_text : String)
    (character_lines : List (String × List String)) :
    Except PyErr (List (String × Character) × List Character) :=
  character_lines.foldlM
    (fun acc p => do
      let char : Character := { name := p.1, lines := some p.2, gender := "unknown" }
      let char ← classify_character llm char (some script_text)
      pure (dictSet acc.1 p.1 char,
            if char.gender = "female" then acc.2 ++ [char] else acc.2))
    ([], [])

/-- Embedding of `BechdelAnalyzer.analyze_script`: extract the
per-speaker lines, classify every speaker, extract the conversations,
then evaluate the criteria. -/
def analyze_script (llm : LLMService) (script_text : String) :
    Except PyErr BechdelResult := do
  let character_lines := process_script script_text
  let (characters, female_characters) ← classifyAll llm script_text character_lines
  let conversations ← extract_conversations llm character_lines characters
  pure (bechdelEvaluate llm female_characters conversations)

/-! ## Helper lemmas for the claim theorems -/

theorem toNat_ofNat_valid (n : Nat) (h : n.isValidChar) :
    (Char.ofNat n).toNat = n := by
  rw [Char.ofNat, dif_pos h]
  rfl

theorem isPySpace_eq_false_of_range (c : Char) (h1 : 65 ≤ c.toNat)
    (h2 : c.toNat ≤ 122) : isPySpace c = false := by
  unfold isPySpace
  simp only [Bool.or_eq_false_iff, Bool.and_eq_false_iff,
    decide_eq_false_iff_not, beq_eq_false_iff_ne, ne_eq]
  omega

/-- Lowercasing does not change whitespace membership: `toLower` only
moves code points 65–90 to 97–122, none of which are whitespace. -/
theorem isPySpace_toLower (c : Char) :
    isPySpace (Char.toLower c) = isPySpace c := by
  unfold Char.toLower
  by_cases h : c.toNat ≥ 65 ∧ c.toNat ≤ 90
  · rw [if_pos h]
    have hval : (c.toNat + 32).isValidChar := Or.inl (by omega)
    have ht : (Char.ofNat (c.toNat + 32)).toNat = c.toNat + 32 :=
      toNat_ofNat_valid _ hval
    rw [isPySpace_eq_false_of_range _ (by omega) (by omega),
      isPySpace_eq_false_of_range c (by omega) (by omega)]
  · rw [if_neg h]

theorem pySplitWsGo_ne_nil (s : List Char) (cur : List Char) (h : cur ≠ []) :
    pySplitWsGo s cur ≠ [] := by
  induction s generalizing cur with
  | nil => simp [pySplitWsGo, h]
  | cons c rest ih =>
    unfold pySplitWsGo
    by_cases hc : isPySpace c
    · simp [hc, h]
    · simp only [hc, Bool.false_eq_true, if_false]
      exact ih (c :: cur) (by simp)

theorem pySplitWsGo_nil_iff (s : List Char) :
    pySplitWsGo s [] = [] ↔ ∀ c ∈ s, isPySpace c = true := by
  induction s with
  | nil => simp [pySplitWsGo]
  | cons c rest ih =>
    unfold pySplitWsGo
    by_cases hc : isPySpace c
    · simp [hc, ih]
    · simp only [hc, Bool.false_eq_true, if_false, List.mem_cons]
      constructor
      · intro h
        exact absurd h (pySplitWsGo_ne_nil rest [c] (by simp))
      · intro h
        exact absurd (h c (Or.inl rfl)) (by simp [hc])

/-! ## Claim theorems -/

/-- C10: `classify_character` requires a name with at least one
non-whitespace character.  `_get_name_gender` indexes
`name.lower().split()[0]`; for a name containing a non-whitespace
character the split is non-empty and every branch returns a gender
string, while for an empty or whitespace-only name the split is empty
and the unguarded indexing raises `IndexError`. -/
theorem get_name_gender_ok_iff_nonblank (name : String) :
    ((∃ c ∈ name.data, isPySpace c = false) →
      ∃ g, _get_name_gender name = Except.ok g) ∧
    ((∀ c ∈ name.data, isPySpace c = true) →
      _get_name_gender name = Except.error PyErr.indexError) := by
  have hdata : (pyLower name).data = name.data.map Char.toLower := rfl
  have hchar : (∀ c ∈ (pyLower name).data, isPySpace c = true) ↔
      (∀ c ∈ name.data, isPySpace c = true) := by
    rw [hdata]
    constructor
    · intro h c hc
      have := h (Char.toLower c) (List.mem_map_of_mem _ hc)
      rwa [isPySpace_toLower] at this
    · intro h c hc
      obtain ⟨a, ha, rfl⟩ := List.mem_map.mp hc
      rw [isPySpace_toLower]
      exact h a ha
  constructor
  · intro ⟨c, hc, hcf⟩
    have hne : ¬ (∀ d ∈ (pyLower name).data, isPySpace d = true) := by
      rw [hchar]
      intro hall
      rw [hall c hc] at hcf
      exact Bool.noConfusion hcf
    cases hsplit : pySplitWs (pyLower name) with
    | nil =>
      exact absurd ((pySplitWsGo_nil_iff _).mp hsplit) hne
    | cons first rest =>
      unfold _get_name_gender
      rw [hsplit]
      dsimp only
      repeat' split
      all_goals exact ⟨_, rfl⟩
  · intro hall
    have hnil : pySplitWs (pyLower name) = [] :=
      (pySplitWsGo_nil_iff _).mpr (hchar.mpr hall)
    unfold _get_name_gender
    rw [hnil]

theorem get_name_gender_ok_iff_nonblank_witness :
    ((∃ c ∈ "XOQ".data, isPySpace c = false) ∧
      (∃ g, _get_name_gender "XOQ" = Except.ok g)) ∧
    ((∀ c ∈ " ".data, isPySpace c = true) ∧
      _get_name_gender " " = Except.error PyErr.indexError) :=
  ⟨⟨by decide, (get_name_gender_ok_iff_nonblank "XOQ").1 (by decide)⟩,
   ⟨by decide, (get_name_gender_ok_iff_nonblank " ").2 (by decide)⟩⟩

/-- C4: the memoizing cache on `is_conversation_about_men` hashes its
list argument and raises `TypeError` before the body runs, so
`_analyze_topic` always falls back to the rule-based analysis — the
pipeline's effective topic classifier is `_rule_based_topic_analysis`,
for every service state and every dialogue. -/
theorem analyze_topic_eq_rule_based (llm : LLMService) (dialogue : List String) :
    is_conversation_about_men llm dialogue = Except.error PyErr.typeError ∧
    _analyze_topic llm dialogue = _rule_based_topic_analysis dialogue :=
  ⟨rfl, rfl⟩

/-- C5: the criteria are evaluated in order with exact short-circuit:
with fewer than two female characters the result is a failure carrying
exactly the criterion-1 reason, with the computed conversations still
attached. -/
theorem criterion1_short_circuit (llm : LLMService) (fems : List Character)
    (convs : List Conversation) (h : fems.length < 2) :
    bechdelEvaluate llm fems convs =
      { passes_test := false, female_characters := fems,
        conversations := some convs,
        failure_reasons := some ["Fewer than two female characters found"] } := by
  unfold bechdelEvaluate
  rw [if_pos h]

theorem criterion1_short_circuit_witness :
    ([] : List Character).length < 2 ∧
    bechdelEvaluate none [] [] =
      { passes_test := false, female_characters := [],
        conversations := some [],
        failure_reasons := some ["Fewer than two female characters found"] } :=
  ⟨by decide, criterion1_short_circuit none [] [] (by decide)⟩

/-- C6 counterexample: two `Character` records with the same name but
different genders hash equal yet are not Python-equal (pydantic's
default `__eq__` compares all fields; only `__hash__` is overridden to
use the name). -/
theorem character_eq_counterexample :
    Character.pyEq { name := "ALICE", lines := none, gender := "female" }
        { name := "ALICE", lines := none, gender := "male" } = false ∧
    Character.pyHash { name := "ALICE", lines := none, gender := "female" } =
      Character.pyHash { name := "ALICE", lines := none, gender := "male" } :=
  ⟨by decide, rfl⟩

/-- C6 amended: the hash is by name only (same name always gives the
same hash), but equality is field-wise: two records are Python-equal
iff name, lines and gender all agree. -/
theorem character_hash_by_name_eq_by_fields (a b : Character) :
    (a.name = b.name → a.pyHash = b.pyHash) ∧
    (Character.pyEq a b = true ↔
      a.name = b.name ∧ a.lines = b.lines ∧ a.gender = b.gender) := by
  constructor
  · intro h
    unfold Character.pyHash
    rw [h]
  · unfold Character.pyEq
    simp [and_assoc]

theorem character_hash_by_name_eq_by_fields_witness :
    Character.pyHash { name := "ALICE", lines := none, gender := "female" } =
      Character.pyHash { name := "ALICE", lines := none, gender := "male" } :=
  (character_hash_by_name_eq_by_fields
    { name := "ALICE", lines := none, gender := "female" }
    { name := "ALICE", lines := none, gender := "male" }).1 rfl

/-- C8: a script with zero recognized speaker cues yields an empty
mapping (no error) and the analysis fails with exactly the
female-character-count reason. -/
theorem no_cues_empty_mapping_and_fail (llm : LLMService) (text : String)
    (h : findDialogues text.data = []) :
    process_script text = [] ∧
    analyze_script llm text = Except.ok
      { passes_test := false, female_characters := [],
        conversations := some [],
        failure_reasons := some ["Fewer than two female characters found"] } := by
  have hext : extract_dialogues text = [] := by
    unfold extract_dialogues
    rw [h]
    rfl
  have hps : process_script text = [] := by
    unfold process_script
    rw [hext]
    rfl
  refine ⟨hps, ?_⟩
  unfold analyze_script
  rw [hps]
  rfl

theorem no_cues_empty_mapping_and_fail_witness :
    findDialogues "hello world, no speaker cues".data = [] ∧
    process_script "hello world, no speaker cues" = [] ∧
    analyze_script none "hello world, no speaker cues" = Except.ok
      { passes_test := false, female_characters := [],
        conversations := some [],
        failure_reasons := some ["Fewer than two female characters found"] } :=
  ⟨by decide,
   no_cues_empty_mapping_and_fail none "hello world, no speaker cues" (by decide)⟩

/-- Concrete always-raising service client used as a counterexample
oracle below. -/
def failingOracle : LLMOracle where
  genderResp := fun _ _ => .error ()
  topicResp := fun _ => .error ()
  validateResp := fun _ _ _ => .error ()

/-- C1 counterexample: for a character reaching the final fallback stage
(name, dialogue and context stages all inconclusive) with the service
initialized, a failing service call makes `detect_gender` raise
`LLMError`, which propagates out of `classify_character` instead of
degrading to "unknown". -/
theorem classify_character_llm_failure_raises :
    classify_character (some failingOracle)
        { name := "XOQ", lines := none, gender := "unknown" } (some "z") =
      Except.error PyErr.llmError := rfl

/-- C1 amended: when the external service is unavailable, a character
reaching the final fallback stage is returned unchanged (gender left
"unknown") and `detect_gender` returns "unknown" without any service
call; the failure-propagation half of the original claim is refuted by
`classify_character_llm_failure_raises`. -/
theorem classify_character_no_service_degrades :
    (∀ (character : Character) (s : String),
      _get_name_gender character.name = Except.ok "unknown" →
      (∀ ls, linesTruthy character = some ls →
        _analyze_dialogue_for_gender ls = "unknown") →
      (∀ t, strTruthy (some s) = some t →
        _analyze_context_for_gender character.name t = "unknown") →
      classify_character none character (some s) = Except.ok character) ∧
    (∀ (nm : String) (ctx : Option String),
      detect_gender none nm ctx = Except.ok "unknown") := by
  constructor
  · intro character s h1 h2 h3
    unfold classify_character
    rw [h1]
    cases hl : linesTruthy character with
    | some ls =>
      cases ht : strTruthy (some s) with
      | some t =>
        simp only [Except.bind, hl, ht, h2 ls hl, h3 t ht, detect_gender,
          ne_eq, not_true_eq_false, reduceIte]
        rfl
      | none =>
        simp only [Except.bind, hl, ht, h2 ls hl, ne_eq, not_true_eq_false,
          reduceIte]
        rfl
    | none =>
      cases ht : strTruthy (some s) with
      | some t =>
        simp only [Except.bind, hl, ht, h3 t ht, detect_gender, ne_eq,
          not_true_eq_false, reduceIte]
        rfl
      | none =>
        simp only [Except.bind, hl, ht, ne_eq, not_true_eq_false, reduceIte]
        rfl
  · intro nm ctx
    rfl

theorem classify_character_no_service_degrades_witness :
    classify_character none
        { name := "XOQ", lines := none, gender := "unknown" } (some "z") =
      Except.ok { name := "XOQ", lines := none, gender := "unknown" } ∧
    detect_gender none "XOQ" (some "z") = Except.ok "unknown" :=
  ⟨classify_character_no_service_degrades.1
      { name := "XOQ", lines := none, gender := "unknown" } "z" rfl
      (fun _ h => Option.noConfusion h)
      (fun t ht => by injection ht with h; subst h; decide),
   classify_character_no_service_degrades.2 "XOQ" (some "z")⟩

/-- C2: the external cross-validation pass has downgrade power only.
Part 1: on a rule-based tentative PASS, a validator response other than
"true" flips the verdict to FAIL with the single validation reason.
Part 2: a raising validation call leaves the tentative PASS unchanged
(the analyzer swallows the exception).  Part 3: with the service
unavailable the tentative PASS is likewise unchanged, with no call
attempted.  Part 4: a tentative FAIL is never overturned — whenever any
criterion fails, the final verdict is FAIL for every service state. -/
theorem cross_validation_downgrade_only :
    (∀ (oracle : LLMOracle) (fems : List Character) (convs : List Conversation)
        (raw : String),
      ¬ fems.length < 2 →
      femaleConversations convs ≠ [] →
      nonMaleConversations convs ≠ [] →
      oracle.validateResp (fems.map (fun c => c.name))
        ((nonMaleConversations convs).map (fun conv => conv.dialogue)) true =
        Except.ok raw →
      stripLower raw ≠ "true" →
      bechdelEvaluate (some oracle) fems convs =
        { passes_test := false, female_characters := fems,
          conversations := some convs,
          failure_reasons := some ["LLM validation determined test should fail"] }) ∧
    (∀ (oracle : LLMOracle) (fems : List Character) (convs : List Conversation)
        (e : Unit),
      ¬ fems.length < 2 →
      femaleConversations convs ≠ [] →
      nonMaleConversations convs ≠ [] →
      oracle.validateResp (fems.map (fun c => c.name))
        ((nonMaleConversations convs).map (fun conv => conv.dialogue)) true =
        Except.error e →
      bechdelEvaluate (some oracle) fems convs =
        { passes_test := true, female_characters := fems,
          conversations := some convs, failure_reasons := none }) ∧
    (∀ (fems : List Character) (convs : List Conversation),
      ¬ fems.length < 2 →
      femaleConversations convs ≠ [] →
      nonMaleConversations convs ≠ [] →
      bechdelEvaluate none fems convs =
        { passes_test := true, female_characters := fems,
          conversations := some convs, failure_reasons := none }) ∧
    (∀ (llm : LLMService) (fems : List Character) (convs : List Conversation),
      (fems.length < 2 ∨ femaleConversations convs = [] ∨
        nonMaleConversations convs = []) →
      (bechdelEvaluate llm fems convs).passes_test = false) := by
  have hcond : ∀ (fems : List Character), ¬ fems.length < 2 →
      (decide (fems.map (fun c => c.name) = []) ||
        decide ((fems.map (fun c => c.name)).length < 2)) = false := by
    intro fems h
    simp only [Bool.or_eq_false_iff, decide_eq_false_iff_not,
      List.map_eq_nil_iff, List.length_map]
    exact ⟨fun hnil => h (hnil ▸ by simp), h⟩
  refine ⟨?_, ?_, ?_, ?_⟩
  · intro oracle fems convs raw h1 h2 h3 hresp hraw
    have hv : validate_bechdel_result (some oracle) (fems.map (fun c => c.name))
        ((nonMaleConversations convs).map (fun conv => conv.dialogue)) true =
        Except.ok false := by
      unfold validate_bechdel_result
      rw [hcond fems h1]
      simp only [Bool.false_eq_true, if_false, hresp]
      simp [hraw]
    unfold bechdelEvaluate
    rw [if_neg h1, if_neg h2, if_neg h3, hv]
    rfl
  · intro oracle fems convs e h1 h2 h3 hresp
    have hv : validate_bechdel_result (some oracle) (fems.map (fun c => c.name))
        ((nonMaleConversations convs).map (fun conv => conv.dialogue)) true =
        Except.error PyErr.nameError := by
      unfold validate_bechdel_result
      rw [hcond fems h1]
      simp only [Bool.false_eq_true, if_false, hresp]
    unfold bechdelEvaluate
    rw [if_neg h1, if_neg h2, if_neg h3, hv]
  · intro fems convs h1 h2 h3
    unfold bechdelEvaluate
    rw [if_neg h1, if_neg h2, if_neg h3]
    rfl
  · intro llm fems convs h
    unfold bechdelEvaluate
    rcases h with h | h | h
    · rw [if_pos h]
    · by_cases h1 : fems.length < 2
      · rw [if_pos h1]
      · rw [if_neg h1, if_pos h]
    · by_cases h1 : fems.length < 2
      · rw [if_pos h1]
      · rw [if_neg h1]
        by_cases h2 : femaleConversations convs = []
        · rw [if_pos h2]
        · rw [if_neg h2, if_pos h]

/-- Concrete service client whose validation verdict disagrees with a
tentative PASS. -/
def disagreeingOracle : LLMOracle where
  genderResp := fun _ _ => .ok "unknown"
  topicResp := fun _ => .ok false
  validateResp := fun _ _ _ => .ok "false"

theorem cross_validation_downgrade_only_witness :
    bechdelEvaluate (some disagreeingOracle)
        [{ name := "ANNA", lines := none, gender := "female" },
         { name := "MARY", lines := none, gender := "female" }]
        [{ participants := [{ name := "ANNA", lines := none, gender := "female" },
                            { name := "MARY", lines := none, gender := "female" }],
           dialogue := ["hi"], about_men := false, context := "c" }] =
      { passes_test := false,
        female_characters :=
          [{ name := "ANNA", lines := none, gender := "female" },
           { name := "MARY", lines := none, gender := "female" }],
        conversations :=
          some [{ participants := [{ name := "ANNA", lines := none, gender := "female" },
                                   { name := "MARY", lines := none, gender := "female" }],
                  dialogue := ["hi"], about_men := false, context := "c" }],
        failure_reasons := some ["LLM validation determined test should fail"] } ∧
    bechdelEvaluate (some failingOracle)
        [{ name := "ANNA", lines := none, gender := "female" },
         { name := "MARY", lines := none, gender := "female" }]
        [{ participants := [{ name := "ANNA", lines := none, gender := "female" },
                            { name := "MARY", lines := none, gender := "female" }],
           dialogue := ["hi"], about_men := false, context := "c" }] =
      { passes_test := true,
        female_characters :=
          [{ name := "ANNA", lines := none, gender := "female" },
           { name := "MARY", lines := none, gender := "female" }],
        conversations :=
          some [{ participants := [{ name := "ANNA", lines := none, gender := "female" },
                                   { name := "MARY", lines := none, gender := "female" }],
                  dialogue := ["hi"], about_men := false, context := "c" }],
        failure_reasons := none } ∧
    (bechdelEvaluate none [] []).passes_test = false :=
  ⟨cross_validation_downgrade_only.1 disagreeingOracle _ _ "false"
      (by decide) (by decide) (by decide) rfl (by decide),
   cross_validation_downgrade_only.2.1 failingOracle _ _ ()
      (by decide) (by decide) (by decide) rfl,
   cross_validation_downgrade_only.2.2.2 none [] [] (Or.inl (by decide))⟩

/-- Statement of the spec's lexicon-ratio fallback heuristic, written
from the spec's own words for comparison with the embedded code:
lowercase and space-split all dialogue lines into a multiset of words,
count the occurrences of the closed male-indicator words, and classify
"about men" iff male-word-count / total-word-count > 0.1 strictly (an
empty multiset gives `false`, as the exact comparison `0 > 0` fails). -/
def lexiconRatioTopicSpec (dialogue : List String) : Bool :=
  let ws := (dialogue.map (fun line => pySplitWs (pyLower line))).join
  10 * (ws.filter (fun w => male_topic_indicators.contains w)).length > ws.length

theorem rule_based_counts (dialogue : List String) (t m : Nat) :
    dialogue.foldl
      (fun acc line =>
        let words := pySplitWs (pyLower line)
        (acc.1 + words.length,
         acc.2 + (words.filter male_topic_indicators.contains).length))
      (t, m) =
    (t + ((dialogue.map (fun line => pySplitWs (pyLower line))).join).length,
     m + (((dialogue.map (fun line => pySplitWs (pyLower line))).join).filter
       male_topic_indicators.contains).length) := by
  induction dialogue generalizing t m with
  | nil => simp
  | cons l ls ih =>
    simp only [List.foldl_cons, List.map_cons, List.join_cons,
      List.filter_append, List.length_append]
    rw [ih]
    simp [Nat.add_assoc]

/-- C3: with the external service entirely unavailable, the pipeline's
topic classification is exactly the lexicon-ratio heuristic of the
spec: multiset word counts over lowercased space-split lines, strict
ratio threshold 0.1, and `false` on a block with zero total words. -/
theorem topic_fallback_is_lexicon_ratio (dialogue : List String) :
    _analyze_topic none dialogue = lexiconRatioTopicSpec dialogue ∧
    ((dialogue.map (fun line => pySplitWs (pyLower line))).join = [] →
      _analyze_topic none dialogue = false) := by
  have hrb : _rule_based_topic_analysis dialogue = lexiconRatioTopicSpec dialogue := by
    unfold _rule_based_topic_analysis lexiconRatioTopicSpec
    rw [rule_based_counts dialogue 0 0]
    dsimp only
    rcases Nat.eq_zero_or_pos
        ((dialogue.map (fun line => pySplitWs (pyLower line))).join).length with
      h0 | hpos
    · rw [if_neg (by omega)]
      have hnil : (dialogue.map (fun line => pySplitWs (pyLower line))).join = [] :=
        List.length_eq_zero.mp h0
      simp [hnil]
    · rw [if_pos (by omega)]
      simp only [Nat.zero_add]
  have h1 : _analyze_topic none dialogue = _rule_based_topic_analysis dialogue := rfl
  refine ⟨h1.trans hrb, fun hj => ?_⟩
  rw [h1, hrb]
  unfold lexiconRatioTopicSpec
  rw [hj]
  rfl

theorem topic_fallback_is_lexicon_ratio_witness :
    _analyze_topic none ["he and him and his"] =
      lexiconRatioTopicSpec ["he and him and his"] ∧
    ((([""] : List String).map (fun line => pySplitWs (pyLower line))).join = []) ∧
    _analyze_topic none [""] = false :=
  ⟨(topic_fallback_is_lexicon_ratio ["he and him and his"]).1,
   by decide,
   (topic_fallback_is_lexicon_ratio [""]).2 (by decide)⟩

theorem matchCueAt_shape (s ch d : List Char) (n : Nat)
    (h : matchCueAt s = some (ch, d, n)) :
    (∃ c cs, ch = c :: cs ∧ isAZUpper c = true) ∧ ∀ x ∈ d, x ≠ '\n' := by
  simp only [matchCueAt] at h
  split at h
  · exact absurd h (by simp)
  · rename_i c rest
    split at h
    · split at h
      · split at h
        · injection h with h1
          injection h1 with h1 h2
          injection h2 with h2 h3
          subst h1
          subst h2
          constructor
          · exact ⟨c, _, rfl, by assumption⟩
          · intro x hx
            have := List.mem_takeWhile_imp hx
            simpa using this
        · exact absurd h (by simp)
      · exact absurd h (by simp)
    · exact absurd h (by simp)

theorem findDialoguesGo_shape (fuel : Nat) :
    ∀ (s : List Char) (p : List Char × List Char), p ∈ findDialoguesGo fuel s →
      (∃ c cs, p.1 = c :: cs ∧ isAZUpper c = true) ∧ ∀ x ∈ p.2, x ≠ '\n' := by
  induction fuel with
  | zero =>
    intro s p hp
    simp [findDialoguesGo] at hp
  | succ fuel ih =>
    intro s p hp
    unfold findDialoguesGo at hp
    cases s with
    | nil => simp at hp
    | cons c rest =>
      dsimp only at hp
      cases hm : matchCueAt (c :: rest) with
      | some v =>
        obtain ⟨ch, d, n⟩ := v
        rw [hm] at hp
        simp only [List.mem_cons] at hp
        rcases hp with rfl | hp
        · exact matchCueAt_shape _ _ _ _ hm
        · exact ih _ _ hp
      | none =>
        rw [hm] at hp
        exact ih _ _ hp

/-- C7 counterexample: the dialogue pattern is unanchored, so the
uppercase-plus-colon token "JOHN:" is recognized as a speaker cue even
though it does not begin at the start of a line; and a cue's dialogue
stops at the first newline, not at the next recognized cue (the line
"there stuff" belongs to no cue's block). -/
theorem speaker_cue_midline_counterexample :
    extract_dialogues "He said JOHN: hello" = [("JOHN", "hello")] ∧
    extract_dialogues "JOHN: hi\nthere stuff\nMARY: yo" =
      [("JOHN", "hi"), ("MARY", "yo")] := by decide

/-- C7 amended: the extractor scans the whole text without line
anchoring — every recognized cue is an uppercase-letter-led token
(followed by uppercase/whitespace characters and a colon) found
anywhere in the text, and a recognized cue's raw dialogue group never
contains a newline: it runs to the first newline after the cue (or end
of text), not to the next recognized cue.  The mid-line recognition is
exhibited by the accompanying counterexample. -/
theorem speaker_cue_scan_unanchored :
    (∀ (s : List Char) (p : List Char × List Char), p ∈ findDialogues s →
      (∃ c cs, p.1 = c :: cs ∧ isAZUpper c = true) ∧ ∀ x ∈ p.2, x ≠ '\n') ∧
    extract_dialogues "He said JOHN: hello" = [("JOHN", "hello")] :=
  ⟨fun s => findDialoguesGo_shape s.length s, by decide⟩

theorem speaker_cue_scan_unanchored_witness :
    (∃ c cs, "AB".data = c :: cs ∧ isAZUpper c = true) ∧
    ∀ x ∈ "hi there".data, x ≠ '\n' :=
  speaker_cue_scan_unanchored.1 "AB: hi there".data
    ("AB".data, "hi there".data) (by decide)

/-- Participant lists that are duplicate-free under Python equality
(the list model of a Python set's members). -/
def charDistinct (l : List Character) : Prop :=
  l.Pairwise (fun a b => a.pyEq b = false)

theorem pySetAdd_distinct {l : List Character} {c : Character}
    (h : charDistinct l) : charDistinct (pySetAdd l c) := by
  unfold pySetAdd
  split
  · exact h
  · rename_i hany
    rw [charDistinct, List.pairwise_append]
    refine ⟨h, List.pairwise_singleton _ _, ?_⟩
    intro a ha b hb
    simp only [List.mem_singleton] at hb
    subst hb
    simp only [List.any_eq_true, not_exists, not_and, Bool.not_eq_true] at hany
    exact hany a ha

theorem pySetPair_distinct (a b : Character) : charDistinct (pySetPair a b) :=
  pySetAdd_distinct (pySetAdd_distinct List.Pairwise.nil)

/-- Property every emitted conversation satisfies. -/
def convP (conv : Conversation) : Prop :=
  conv.participants.length ≥ 2 ∧ charDistinct conv.participants ∧
    conv.dialogue ≠ []

theorem convStep_invariant (llm : LLMService)
    (characters : List (String × Character)) (name line : String)
    (restNil : Bool) (i : Nat) (participants0 : List Character)
    (dialogue0 : List String) (last_speaker : Option String)
    (conversations0 : List Conversation) (p : List Character)
    (d : List String) (cs : List Conversation)
    (h : convStep llm characters name line restNil i participants0 dialogue0
      last_speaker conversations0 = Except.ok (p, d, cs))
    (hp0 : charDistinct participants0)
    (hcs0 : ∀ conv ∈ conversations0, convP conv) :
    charDistinct p ∧ d ≠ [] ∧ ∀ conv ∈ cs, convP conv := by
  unfold convStep at h
  cases hd : dictIndex characters name with
  | error e =>
    rw [hd] at h
    exact absurd h (by simp)
  | ok current_char =>
    rw [hd] at h
    dsimp only at h
    -- conversations after the emission step all satisfy convP
    have hconvs1 : ∀ conv ∈
        (if speakerTruthy last_speaker && speakerNe name last_speaker &&
            decide ((pySetAdd participants0 current_char).length ≥ 2) then
          conversations0 ++
            [{ participants := pySetAdd participants0 current_char,
               dialogue := dialogue0 ++ [line],
               about_men := _analyze_topic llm (dialogue0 ++ [line]),
               context := "Conversation at sequence " ++ toString i }]
        else conversations0), convP conv := by
      split
      · rename_i hcond
        simp only [Bool.and_eq_true, decide_eq_true_eq] at hcond
        intro conv hconv
        rw [List.mem_append] at hconv
        rcases hconv with hconv | hconv
        · exact hcs0 conv hconv
        · simp only [List.mem_singleton] at hconv
          subst hconv
          exact ⟨hcond.2, pySetAdd_distinct hp0, by simp⟩
      · exact hcs0
    revert h
    split
    · rename_i heq
      intro h
      exact absurd h (by simp)
    · rename_i p' d' heq
      intro h
      injection h with h
      injection h with h1 h
      injection h with h2 h3
      subst h1
      subst h2
      subst h3
      -- the reset step yields distinct participants and non-empty dialogue
      have hreset : charDistinct p' ∧ d' ≠ [] := by
        revert heq
        split
        · split
          · intro heq
            exact absurd heq (by simp)
          · split
            · split
              · intro heq
                exact absurd heq (by simp)
              · intro heq
                injection heq with heq
                injection heq with he1 he2
                subst he1
                subst he2
                exact ⟨pySetPair_distinct _ _, by simp⟩
            · intro heq
              injection heq with heq
              injection heq with he1 he2
              subst he1
              subst he2
              exact ⟨pySetAdd_distinct List.Pairwise.nil, by simp⟩
        · intro heq
          injection heq with heq
          injection heq with he1 he2
          subst he1
          subst he2
          exact ⟨pySetAdd_distinct hp0, by simp⟩
      refine ⟨hreset.1, hreset.2, ?_⟩
      split
      · rename_i hcond3
        simp only [Bool.and_eq_true, decide_eq_true_eq] at hcond3
        intro conv hconv
        rw [List.mem_append] at hconv
        rcases hconv with hconv | hconv
        · exact hconvs1 conv hconv
        · simp only [List.mem_singleton] at hconv
          subst hconv
          exact ⟨hcond3.2, hreset.1, hreset.2⟩
      · exact hconvs1

theorem convLoop_invariant (llm : LLMService)
    (characters : List (String × Character)) :
    ∀ (seq : List (String × String)) (i : Nat) (p0 : List Character)
      (d0 : List String) (last : Option String)
      (cs0 convs : List Conversation),
    convLoop llm characters seq i p0 d0 last cs0 = Except.ok convs →
    charDistinct p0 → (∀ conv ∈ cs0, convP conv) →
    ∀ conv ∈ convs, convP conv := by
  intro seq
  induction seq with
  | nil =>
    intro i p0 d0 last cs0 convs h hp hcs
    unfold convLoop at h
    injection h with h
    subst h
    exact hcs
  | cons hd tl ih =>
    intro i p0 d0 last cs0 convs h hp hcs
    obtain ⟨name, line⟩ := hd
    unfold convLoop at h
    revert h
    split
    · intro h
      exact absurd h (by simp)
    · rename_i p d cs hstep
      intro h
      obtain ⟨hpd, hdne, hcsP⟩ :=
        convStep_invariant llm characters name line (tl = []) i p0 d0 last cs0
          p d cs hstep hp hcs
      exact ih _ _ _ _ _ _ h hpd hcsP

/-- C9: every conversation the segmenter emits has at least two
distinct participants (the emission guards require the running
set's size to be at least 2, and the set model is duplicate-free) and
at least one dialogue line — the segmenter itself never emits a
single-speaker window. -/
theorem conversations_two_participants_nonempty (llm : LLMService)
    (character_lines : List (String × List String))
    (characters : List (String × Character)) (convs : List Conversation)
    (h : extract_conversations llm character_lines characters =
      Except.ok convs) :
    ∀ conv ∈ convs, conv.participants.length ≥ 2 ∧
      conv.participants.Pairwise (fun a b => a.pyEq b = false) ∧
      conv.dialogue ≠ [] := by
  unfold extract_conversations at h
  dsimp only at h
  revert h
  split
  · intro h
    injection h with h
    subst h
    intro conv hconv
    exact absurd hconv (List.not_mem_nil conv)
  · intro h
    revert h
    split
    · rename_i cs hloop
      intro h
      injection h with h
      subst h
      exact convLoop_invariant llm characters _ 0 [] [] none [] cs hloop
        List.Pairwise.nil (fun conv hconv => absurd hconv (List.not_mem_nil conv))
    · intro h
      exact absurd h (by simp)

theorem conversations_two_participants_nonempty_witness :
    ({ participants := [{ name := "SARAH", lines := some ["hi"], gender := "female" },
                        { name := "MARY", lines := some ["yo"], gender := "female" }],
       dialogue := ["hi", "yo"], about_men := false,
       context := "Conversation at sequence 1" } : Conversation).participants.length ≥ 2 ∧
    List.Pairwise (fun a b => a.pyEq b = false)
      ({ participants := [{ name := "SARAH", lines := some ["hi"], gender := "female" },
                          { name := "MARY", lines := some ["yo"], gender := "female" }],
         dialogue := ["hi", "yo"], about_men := false,
         context := "Conversation at sequence 1" } : Conversation).participants ∧
    ({ participants := [{ name := "SARAH", lines := some ["hi"], gender := "female" },
                        { name := "MARY", lines := some ["yo"], gender := "female" }],
       dialogue := ["hi", "yo"], about_men := false,
       context := "Conversation at sequence 1" } : Conversation).dialogue ≠ [] :=
  conversations_two_participants_nonempty none
    [("SARAH", ["hi"]), ("MARY", ["yo"])]
    [("SARAH", { name := "SARAH", lines := some ["hi"], gender := "female" }),
     ("MARY", { name := "MARY", lines := some ["yo"], gender := "female" })]
    [{ participants := [{ name := "SARAH", lines := some ["hi"], gender := "female" },
                        { name := "MARY", lines := some ["yo"], gender := "female" }],
       dialogue := ["hi", "yo"], about_men := false,
       context := "Conversation at sequence 1" },
     { participants := [{ name := "SARAH", lines := some ["hi"], gender := "female" },
                        { name := "MARY", lines := some ["yo"], gender := "female" }],
       dialogue := ["yo", "yo"], about_men := false,
       context := "Final conversation in sequence" }]
    rfl
    { participants := [{ name := "SARAH", lines := some ["hi"], gender := "female" },
                       { name := "MARY", lines := some ["yo"], gender := "female" }],
      dialogue := ["hi", "yo"], about_men := false,
      context := "Conversation at sequence 1" }
    (by decide)

end BTest
